import Mathlib

/-!
Shallow embedding of the `fidesctl` core modules
`annotate_dataset.py` and `generate_dataset.py`.

Strings are modelled as `List Char` so that Python's `str.strip()` and
`str.split(",")` can be embedded and reasoned about directly.  The
interactive surface (`click.prompt` / `click.confirm`) is modelled by two
finite input streams: a list of raw response lines and a list of
confirmation booleans; a run that exhausts its scripted input is reported
as a distinct outcome (the real program would block on stdin there).
-/

namespace Fides

/-- Character strings, as plain lists of characters. -/
abbrev Str := List Char

/-- Whitespace as stripped by Python's `str.strip()` (ASCII fragment). -/
def isPySpace (c : Char) : Bool :=
  c = ' ' || c = '\t' || c = '\n' || c = '\x0d' || c = '\x0b' || c = '\x0c'

/-- Python `str.strip()`: drop whitespace from both ends. -/
def pyStrip (s : Str) : Str :=
  ((s.dropWhile isPySpace).reverse.dropWhile isPySpace).reverse

/-- Python `str.split(sep)` for a one-character separator: splits on every
occurrence, and the empty string splits to `[""]`. -/
def pySplit (sep : Char) : Str → List Str
  | [] => [[]]
  | c :: cs =>
    if c = sep then
      [] :: pySplit sep cs
    else
      match pySplit sep cs with
      | [] => [[c]]
      | p :: ps => (c :: p) :: ps

/-- The two exception kinds raised by `validate_data_categories`:
`FidesValidationError` (from `FidesKey.validate`) and `ValueError`
(membership failure).  Both are caught together by the prompt loop. -/
inductive VError
  | fidesValidation
  | valueError
  deriving DecidableEq

/-- `validate_data_categories(categories, valid_categories)` from
`annotate_dataset.py`.  For each category it first runs
`FidesKey.validate` (the key-syntax grammar of the external `fideslang`
library, modelled as the abstract predicate `keyOk`), then checks
membership in `valid_categories`; the first failure raises. -/
def validate_data_categories (keyOk : Str → Bool) :
    List Str → List Str → Except VError Unit
  | [], _ => .ok ()
  | c :: cs, valid_categories =>
    if keyOk c then
      if c ∈ valid_categories then
        validate_data_categories keyOk cs valid_categories
      else
        .error .valueError
    else
      .error .fidesValidation

/-- Outcome of one call of the prompt loop: a returned category list, the
`AnnotationAbortError` signal, or exhaustion of the scripted input.  The
remaining input streams are carried along. -/
inductive PromptOut
  | ok (cats : List Str) (lines : List Str) (confirms : List Bool)
  | abort (lines : List Str) (confirms : List Bool)
  | noInput
  deriving DecidableEq

/-- The function get_data_categories_annotation from `annotate_dataset.py`.  The
`dataset_member` argument of the source is display-only (its name is
interpolated into the prompt text) and is omitted.  `click.prompt`
consumes the next line of `lines`; `click.confirm` consumes the next
boolean of `confirms`.  Note that both recursive calls in the source omit
the `validate` keyword, so they run with the default `validate=True`;
this is embedded faithfully by passing `true` there. -/
def get_data_categories_annotation (keyOk : Str → Bool)
    (valid_categories : List Str) :
    Bool → List Str → List Bool → PromptOut
  | _, [], _ => .noInput
  | validate, raw :: lines, confirms =>
    let user_response := (pySplit ',' raw).map pyStrip
    if user_response = [['s']] then
      .ok [] lines confirms
    else if user_response = [['q']] then
      match confirms with
      | [] => .noInput
      | b :: confirms' =>
        if b then
          .abort lines confirms'
        else
          get_data_categories_annotation keyOk valid_categories true
            lines confirms'
    else if validate then
      match validate_data_categories keyOk user_response valid_categories with
      | .ok _ => .ok user_response lines confirms
      | .error _ =>
        get_data_categories_annotation keyOk valid_categories true
          lines confirms
    else
      .ok user_response lines confirms

/-- `DatasetField` of `fideslang.models`, restricted to the fields the
annotator and generator touch.  Python's falsy test
`not field.data_categories` (true for both `None` and `[]`) is modelled
by `data_categories = []`. -/
structure DatasetField where
  name : Str
  description : Str := []
  data_categories : List Str := []
  deriving DecidableEq

/-- `DatasetCollection` of `fideslang.models`, restricted as above. -/
structure DatasetCollection where
  name : Str
  description : Str := []
  data_categories : List Str := []
  fields : List DatasetField := []
  deriving DecidableEq

/-- `Dataset` of `fideslang.models`, restricted as above. -/
structure Dataset where
  fides_key : Str := []
  name : Str
  description : Str := []
  data_categories : List Str := []
  collections : List DatasetCollection := []
  deriving DecidableEq

/-- Outcome of an inner loop of the walker: the processed entities and the
remaining input streams, or exhaustion of the scripted input. -/
inductive StepOut (α : Type)
  | ok (a : α) (lines : List Str) (confirms : List Bool)
  | noInput
  deriving DecidableEq

/-- The `for field in table.fields` loop of `annotate_dataset`: a field
with empty categories is prompted and assigned; on
`AnnotationAbortError` the loop `break`s, leaving the current field and
all remaining fields unchanged, and control returns normally to the
enclosing collection loop. -/
def annotate_fields (keyOk : Str → Bool) (valid : List Str)
    (validate : Bool) :
    List DatasetField → List Str → List Bool → StepOut (List DatasetField)
  | [], lines, confirms => .ok [] lines confirms
  | f :: fs, lines, confirms =>
    if f.data_categories = [] then
      match get_data_categories_annotation keyOk valid validate lines confirms with
      | .ok cats lines' confirms' =>
        match annotate_fields keyOk valid validate fs lines' confirms' with
        | .ok fs' l c => .ok ({ f with data_categories := cats } :: fs') l c
        | .noInput => .noInput
      | .abort lines' confirms' => .ok (f :: fs) lines' confirms'
      | .noInput => .noInput
    else
      match annotate_fields keyOk valid validate fs lines confirms with
      | .ok fs' l c => .ok (f :: fs') l c
      | .noInput => .noInput

/-- The `for table in current_dataset.collections` loop of
`annotate_dataset`: in annotate-all mode a collection with empty
categories is prompted first; on `AnnotationAbortError` the loop
`break`s, leaving this and all remaining collections unchanged, and
control returns normally to the enclosing dataset loop.  Otherwise the
field loop runs on the collection's fields. -/
def annotate_collections (keyOk : Str → Bool) (valid : List Str)
    (annotate_all validate : Bool) :
    List DatasetCollection → List Str → List Bool →
      StepOut (List DatasetCollection)
  | [], lines, confirms => .ok [] lines confirms
  | t :: ts, lines, confirms =>
    if annotate_all ∧ t.data_categories = [] then
      match get_data_categories_annotation keyOk valid validate lines confirms with
      | .abort l c => .ok (t :: ts) l c
      | .noInput => .noInput
      | .ok cats l c =>
        match annotate_fields keyOk valid validate t.fields l c with
        | .ok flds l' c' =>
          match annotate_collections keyOk valid annotate_all validate ts l' c' with
          | .ok ts' l'' c'' =>
            .ok ({ t with data_categories := cats, fields := flds } :: ts') l'' c''
          | .noInput => .noInput
        | .noInput => .noInput
    else
      match annotate_fields keyOk valid validate t.fields lines confirms with
      | .ok flds l' c' =>
        match annotate_collections keyOk valid annotate_all validate ts l' c' with
        | .ok ts' l'' c'' => .ok ({ t with fields := flds } :: ts') l'' c''
        | .noInput => .noInput
      | .noInput => .noInput

/-- The body of the `for dataset in datasets` loop for one dataset: the
dataset-level prompt (annotate-all mode, empty categories only), whose
`AnnotationAbortError` handler `break`s out of the whole dataset loop
(`abortBreak`), followed by the collection loop. -/
inductive DsOut
  | ok (d : Dataset) (lines : List Str) (confirms : List Bool)
  | abortBreak (lines : List Str) (confirms : List Bool)
  | noInput
  deriving DecidableEq

/-- One iteration of the dataset loop of `annotate_dataset`. -/
def annotate_one_dataset (keyOk : Str → Bool) (valid : List Str)
    (annotate_all validate : Bool) (d : Dataset)
    (lines : List Str) (confirms : List Bool) : DsOut :=
  if annotate_all ∧ d.data_categories = [] then
    match get_data_categories_annotation keyOk valid validate lines confirms with
    | .abort l c => .abortBreak l c
    | .noInput => .noInput
    | .ok cats l c =>
      match annotate_collections keyOk valid annotate_all validate
          ({ d with data_categories := cats }).collections l c with
      | .ok cols l' c' =>
        .ok { d with data_categories := cats, collections := cols } l' c'
      | .noInput => .noInput
  else
    match annotate_collections keyOk valid annotate_all validate
        d.collections lines confirms with
    | .ok cols l' c' => .ok { d with collections := cols } l' c'
    | .noInput => .noInput

/-- Outcome of a whole `annotate_dataset` run: the `output_dataset` list
handed to `manifests.write_manifest`, the `NameError` raised when the
`for`/`else` clause reads the never-bound loop variable
`current_dataset`, or exhaustion of the scripted input. -/
inductive WalkOut
  | written (output : List Dataset)
  | nameError
  | outOfInput
  deriving DecidableEq

/-- The dataset loop of `annotate_dataset`, tracking the binding of the
loop variable `current_dataset` across iterations.  Python's `for`/`else`
runs the `else` clause exactly when the loop was not exited by `break`;
that clause appends only the final value of `current_dataset` to
`output_dataset` (and raises `NameError` if the loop never ran).  A
dataset-level abort `break`s the loop, skipping the `else`, so
`output_dataset` stays `[]`. -/
def annotate_datasets_go (keyOk : Str → Bool) (valid : List Str)
    (annotate_all validate : Bool) :
    List Dataset → Option Dataset → List Str → List Bool → WalkOut
  | [], current_dataset, _, _ =>
    match current_dataset with
    | none => .nameError
    | some d => .written [d]
  | d :: ds, _, lines, confirms =>
    match annotate_one_dataset keyOk valid annotate_all validate d lines confirms with
    | .ok d' l c => annotate_datasets_go keyOk valid annotate_all validate ds (some d') l c
    | .abortBreak _ _ => .written []
    | .noInput => .outOfInput

/-- `annotate_dataset` from `annotate_dataset.py`, from the point where
the manifest has been parsed into `datasets` and the valid category keys
into `existing_categories`.  The result is the list passed to
`manifests.write_manifest` (or the error outcome). -/
def annotate_dataset (keyOk : Str → Bool) (existing_categories : List Str)
    (annotate_all validate : Bool) (datasets : List Dataset)
    (lines : List Str) (confirms : List Bool) : WalkOut :=
  annotate_datasets_go keyOk existing_categories annotate_all validate
    datasets none lines confirms

/-- The slice of a `sqlalchemy` inspector used by
`get_db_collections_and_fields`: the schema names of the connected
database, and per schema the table names and per table the ordered column
names.  This is an external collaborator (read-only introspection). -/
structure Inspector where
  schema_names : List Str
  table_names : Str → List Str
  columns : Str → Str → List Str

/-- `get_db_collections_and_fields` from `generate_dataset.py`.  Python
dicts preserve insertion order, so the result is modelled as an ordered
association list `[(schema, [(qualified_table_name, columns)])]`.
`dialect` is `engine.dialect.name`. -/
def get_db_collections_and_fields (dialect : Str) (inspector : Inspector) :
    List (Str × List (Str × List Str)) :=
  let excluded_schemas : List Str :=
    ["information_schema".data] ++
      (if dialect = "mysql".data then
        ["mysql".data, "performance_schema".data, "sys".data]
      else [])
  let schemas := inspector.schema_names.filter (fun s => s ∉ excluded_schemas)
  schemas.map (fun s =>
    (s, (inspector.table_names s).map (fun t =>
      (s ++ ".".data ++ t, inspector.columns s t))))

/-- `create_dataset_collections` from `generate_dataset.py`: one
`Dataset` per schema, one `DatasetCollection` per table (keyed by the
qualified name), one `DatasetField` per column, each with a generated
placeholder description, and every field with `data_categories=[]`. -/
def create_dataset_collections
    (db_tables : List (Str × List (Str × List Str))) : List Dataset :=
  db_tables.map (fun p =>
    { fides_key := p.1
      name := p.1
      description := "Fides Generated Description for Schema: ".data ++ p.1
      collections := p.2.map (fun q =>
        { name := q.1
          description := "Fides Generated Description for Table: ".data ++ q.1
          fields := q.2.map (fun column =>
            { name := column
              description :=
                "Fides Generated Description for Column: ".data ++ column
              data_categories := [] }) }) })

/-! ### Lemmas about the embedded Python string primitives -/

/-- `dropWhile` only discards elements satisfying the predicate. -/
theorem mem_dropWhile_of_mem {p : Char → Bool} {c : Char}
    (hc : p c = false) : ∀ {l : Str}, c ∈ l → c ∈ l.dropWhile p := by
  intro l
  induction l with
  | nil => intro h; cases h
  | cons a as ih =>
    intro h
    by_cases ha : p a
    · rw [List.dropWhile_cons_of_pos ha]
      rcases List.mem_cons.mp h with rfl | h
      · rw [hc] at ha; cases ha
      · exact ih h
    · rw [List.dropWhile_cons_of_neg ha]
      exact h

/-- Stripping only removes whitespace: any non-whitespace character of a
string survives `pyStrip`. -/
theorem mem_pyStrip_of_mem {c : Char} (hc : isPySpace c = false)
    {s : Str} (h : c ∈ s) : c ∈ pyStrip s := by
  unfold pyStrip
  rw [List.mem_reverse]
  exact mem_dropWhile_of_mem hc (List.mem_reverse.mpr (mem_dropWhile_of_mem hc h))

/-- A string without the separator splits into the single piece itself. -/
theorem pySplit_of_not_mem {sep : Char} :
    ∀ {s : Str}, sep ∉ s → pySplit sep s = [s] := by
  intro s
  induction s with
  | nil => intro _; rfl
  | cons c cs ih =>
    intro h
    have hcs : sep ∉ cs := fun hm => h (List.mem_cons_of_mem _ hm)
    have hc : ¬ c = sep := fun he => h (he ▸ List.mem_cons_self c cs)
    simp only [pySplit, if_neg hc, ih hcs]

/-- A raw response whose whole stripped content is a single
non-whitespace, non-comma character parses to exactly that token. -/
theorem parse_of_pyStrip_single {s : Str} {c : Char} (hc : c ≠ ',')
    (h : pyStrip s = [c]) : (pySplit ',' s).map pyStrip = [[c]] := by
  have hnm : (',' : Char) ∉ s := by
    intro hm
    have := mem_pyStrip_of_mem (by decide) hm
    rw [h] at this
    exact hc ((List.mem_singleton.mp this).symm)
  rw [pySplit_of_not_mem hnm]
  simp [h]

/-! ### Claim theorems for the category validator -/

/-- Claim C4: for every list of candidate label strings and every
reference list of valid labels, `validate_data_categories` succeeds
(returns without raising) if and only if every candidate both satisfies
the `FidesKey` key-syntax grammar (the abstract predicate `keyOk`) and is
a member of the reference list; a single invalid item makes the whole
call fail, with no partial acceptance. -/
theorem validate_data_categories_ok_iff (keyOk : Str → Bool)
    (categories valid_categories : List Str) :
    validate_data_categories keyOk categories valid_categories = .ok () ↔
      ∀ c ∈ categories, keyOk c = true ∧ c ∈ valid_categories := by
  induction categories with
  | nil => simp [validate_data_categories]
  | cons c cs ih =>
    simp only [validate_data_categories]
    by_cases hk : keyOk c
    · by_cases hm : c ∈ valid_categories
      · simp [hk, hm, ih]
      · simp [hk, hm]
    · simp [hk]

/-! ### Claim theorems for the prompt loop -/

/-- Claim C6: in get_data_categories_annotation, a response whose full
trimmed content is exactly `"s"` returns an empty label list immediately
regardless of the validation setting; a response whose full trimmed
content is exactly `"q"` followed by a confirmed quit always raises the
Abort condition (`AnnotationAbortError`) rather than returning a value. -/
theorem prompt_skip_and_quit :
    (∀ (keyOk : Str → Bool) (valid : List Str) (validate : Bool)
        (raw : Str) (lines : List Str) (confirms : List Bool),
        pyStrip raw = ['s'] →
        get_data_categories_annotation keyOk valid validate (raw :: lines)
          confirms = .ok [] lines confirms) ∧
    (∀ (keyOk : Str → Bool) (valid : List Str) (validate : Bool)
        (raw : Str) (lines : List Str) (confirms : List Bool),
        pyStrip raw = ['q'] →
        get_data_categories_annotation keyOk valid validate (raw :: lines)
          (true :: confirms) = .abort lines confirms) := by
  constructor
  · intro keyOk valid validate raw lines confirms h
    have hp := parse_of_pyStrip_single (by decide) h
    simp [ get_data_categories_annotation, hp]
  · intro keyOk valid validate raw lines confirms h
    have hp := parse_of_pyStrip_single (by decide) h
    simp [ get_data_categories_annotation, hp]

/-- Witness for C6 at concrete inputs: the raw responses `" s "` and
`"q"` on scripted streams. -/
theorem prompt_skip_and_quit_inst :
    get_data_categories_annotation (fun _ => true) [] false
      (" s ".data :: []) [] = .ok [] [] [] ∧
    get_data_categories_annotation (fun _ => true) [] true
      ("q".data :: []) (true :: []) = .abort [] [] :=
  ⟨prompt_skip_and_quit.1 (fun _ => true) [] false " s ".data [] []
      (by decide),
   prompt_skip_and_quit.2 (fun _ => true) [] true "q".data [] []
      (by decide)⟩

/-- Claim C5 is refuted by this run: with `validate=False`, an operator
who answers `"q"`, declines the confirmation, and then supplies the
label `"bogus"` (not a member of the empty reference list) does not get
`["bogus"]` back.  The recursive retry call in the source omits the
`validate` argument, so validation is silently re-enabled: the validator
rejects `"bogus"`, the loop re-prompts, and the scripted input runs out
(`noInput`).  The second conjunct shows the same response with
`validate=False` on the direct path is returned unvalidated, isolating
the dropped argument as the cause. -/
theorem quit_decline_reenables_validation :
    get_data_categories_annotation (fun _ => true) [] false
      ("q".data :: "bogus".data :: []) (false :: []) = .noInput ∧
    get_data_categories_annotation (fun _ => true) [] false
      ("bogus".data :: []) [] = .ok ["bogus".data] [] [] := by decide

/-! ### Concrete fixtures for the walker claims -/

/-- A key-syntax predicate accepting everything (stand-in for the
external `FidesKey` grammar in concrete runs). -/
def kTrue : Str → Bool := fun _ => true

/-- The one valid category label used by the scripted operators. -/
def catPersons : Str := "persons".data

/-- Fixture dataset 1 for the annotate-all run: one collection, one
field, all label sets empty. -/
def fixA1 : Dataset :=
  { name := "ds1".data
    fides_key := "ds1".data
    collections := [{ name := "t1".data, fields := [{ name := "f1".data }] }] }

/-- Fixture dataset 2 for the annotate-all run. -/
def fixA2 : Dataset :=
  { name := "ds2".data
    fides_key := "ds2".data
    collections := [{ name := "t2".data, fields := [{ name := "f2".data }] }] }

/-- `fixA2` as it stands after the scripted operator has supplied
`"persons"` at its dataset-, collection- and field-level prompts. -/
def fixA2_done : Dataset :=
  { name := "ds2".data
    fides_key := "ds2".data
    data_categories := [catPersons]
    collections := [{ name := "t2".data
                      data_categories := [catPersons]
                      fields := [{ name := "f2".data
                                   data_categories := [catPersons] }] }] }

/-- Claim C1 is refuted by this run: a two-dataset manifest with all
label sets empty, annotate-all on, and an operator who supplies the
valid label `"persons"` at every one of the six prompts.  Both datasets
are fully annotated in memory, yet the `for`/`else` accumulation appends
only the final `current_dataset`, so the list passed to
`write_manifest` is `[fixA2_done]`: dataset `ds1` and all its collected
labels are dropped from the output. -/
theorem annotate_dataset_keeps_only_last :
    annotate_dataset kTrue [catPersons] true true [fixA1, fixA2]
      [catPersons, catPersons, catPersons, catPersons, catPersons,
        catPersons] [] = .written [fixA2_done] := by decide

/-- Fixture dataset 1 for the abort run: one collection with two empty
fields. -/
def fixB1 : Dataset :=
  { name := "ds1".data
    fides_key := "ds1".data
    collections := [{ name := "t1".data
                      fields := [{ name := "g1".data },
                        { name := "g2".data }] }] }

/-- Fixture dataset 2 for the abort run: one collection with one empty
field. -/
def fixB2 : Dataset :=
  { name := "ds2".data
    fides_key := "ds2".data
    collections := [{ name := "t2".data, fields := [{ name := "h1".data }] }] }

/-- `fixB2` after its single field has been annotated `"persons"`. -/
def fixB2_done : Dataset :=
  { name := "ds2".data
    fides_key := "ds2".data
    collections := [{ name := "t2".data
                      fields := [{ name := "h1".data
                                   data_categories := [catPersons] }] }] }

/-- Claim C2 is refuted by this run (field-only mode): the operator
labels the first field of dataset 1 with `"persons"`, aborts
(`"q"` + confirmed) on its second field, and then labels dataset 2's
field.  The label collected on `ds1.t1.g1` before the abort is absent
from the written manifest: the `for`/`else` accumulation keeps only the
last dataset, `fixB2_done`. -/
theorem annotate_dataset_abort_loses_progress :
    annotate_dataset kTrue [catPersons] false true [fixB1, fixB2]
      [catPersons, "q".data, catPersons] [true] = .written [fixB2_done] := by
  decide

/-- Claim C10: if the parsed manifest's dataset list is empty, the
`for`/`else` clause runs with the loop variable `current_dataset` never
bound, so `annotate_dataset` raises an unhandled `NameError` instead of
writing an empty manifest back out — for every setting of the flags,
reference list and input streams. -/
theorem annotate_dataset_empty_manifest_name_error (keyOk : Str → Bool)
    (existing_categories : List Str) (annotate_all validate : Bool)
    (lines : List Str) (confirms : List Bool) :
    annotate_dataset keyOk existing_categories annotate_all validate []
      lines confirms = .nameError := by
  simp [annotate_dataset, annotate_datasets_go]

/-- Fixture dataset for the abort-scope run: two collections of one
empty field each. -/
def fixC : Dataset :=
  { name := "ds".data
    fides_key := "ds".data
    collections := [{ name := "c1".data, fields := [{ name := "u1".data }] },
      { name := "c2".data, fields := [{ name := "u2".data }] }] }

/-- `fixC` after the abort run: the first field is untouched (the abort
landed on its prompt) while the second collection's field — later in the
walk — carries the label supplied after the abort. -/
def fixC_after : Dataset :=
  { name := "ds".data
    fides_key := "ds".data
    collections := [{ name := "c1".data, fields := [{ name := "u1".data }] },
      { name := "c2".data, fields := [{ name := "u2".data
                                        data_categories := [catPersons] }] }] }

/-- Claim C3 is refuted by this run: the first conjunct shows the first
field prompt of `fixC` (response `"q"`, confirmed) raises the Abort
condition, consuming the states down to `(["persons"], [])`; the second
conjunct shows the same full run then continues prompting — the field of
the second collection consumes the remaining scripted response and is
assigned `"persons"` after the abort.  The `break` in the field loop
only exits that innermost loop. -/
theorem abort_does_not_stop_walk :
    get_data_categories_annotation kTrue [catPersons] true
      ("q".data :: [catPersons]) [true] = .abort [catPersons] [] ∧
    annotate_dataset kTrue [catPersons] false true [fixC]
      ["q".data, catPersons] [true] = .written [fixC_after] := by decide

/-- Claim C3 as amended: an Abort raised during a field-level prompt
stops prompting only for the current and remaining fields of the current
collection (the loop returns normally, so the walk continues with the
next collection); an Abort during a collection-level prompt stops
prompting only for the current and remaining collections of the current
dataset (the walk continues with the next dataset); only an Abort during
a dataset-level prompt halts the entire walk, upon which the empty
output list is written. -/
theorem abort_stops_one_loop_level :
    (∀ (keyOk : Str → Bool) (valid : List Str) (validate : Bool)
        (f : DatasetField) (fs : List DatasetField) (lines : List Str)
        (confirms : List Bool) (l : List Str) (c : List Bool),
        f.data_categories = [] →
        get_data_categories_annotation keyOk valid validate lines confirms
          = .abort l c →
        annotate_fields keyOk valid validate (f :: fs) lines confirms
          = .ok (f :: fs) l c) ∧
    (∀ (keyOk : Str → Bool) (valid : List Str) (validate : Bool)
        (t : DatasetCollection) (ts : List DatasetCollection)
        (lines : List Str) (confirms : List Bool) (l : List Str)
        (c : List Bool),
        t.data_categories = [] →
        get_data_categories_annotation keyOk valid validate lines confirms
          = .abort l c →
        annotate_collections keyOk valid true validate (t :: ts) lines
          confirms = .ok (t :: ts) l c) ∧
    (∀ (keyOk : Str → Bool) (valid : List Str) (validate : Bool)
        (d : Dataset) (ds : List Dataset) (lines : List Str)
        (confirms : List Bool) (l : List Str) (c : List Bool),
        d.data_categories = [] →
        get_data_categories_annotation keyOk valid validate lines confirms
          = .abort l c →
        annotate_dataset keyOk valid true validate (d :: ds) lines confirms
          = .written []) := by
  refine ⟨?_, ?_, ?_⟩
  · intro keyOk valid validate f fs lines confirms l c hf habort
    simp [annotate_fields, hf, habort]
  · intro keyOk valid validate t ts lines confirms l c ht habort
    simp [annotate_collections, ht, habort]
  · intro keyOk valid validate d ds lines confirms l c hd habort
    simp [annotate_dataset, annotate_datasets_go, annotate_one_dataset, hd,
      habort]

/-- Witness for the amended C3 at concrete inputs: one-element loops,
response `"q"` confirmed at the first prompt of each level. -/
theorem abort_stops_one_loop_level_inst :
    annotate_fields kTrue [] true [{ name := "f".data }] ["q".data] [true]
      = .ok [{ name := "f".data }] [] [] ∧
    annotate_collections kTrue [] true true [{ name := "t".data }]
      ["q".data] [true] = .ok [{ name := "t".data }] [] [] ∧
    annotate_dataset kTrue [] true true [{ name := "d".data }] ["q".data]
      [true] = .written [] :=
  ⟨abort_stops_one_loop_level.1 kTrue [] true { name := "f".data } []
      ["q".data] [true] [] [] rfl (by decide),
   abort_stops_one_loop_level.2.1 kTrue [] true { name := "t".data } []
      ["q".data] [true] [] [] rfl (by decide),
   abort_stops_one_loop_level.2.2 kTrue [] true { name := "d".data } []
      ["q".data] [true] [] [] rfl (by decide)⟩

/-! ### Preservation of already non-empty label sets (claim C7) -/

/-- A field whose label set was already non-empty is passed through the
field loop completely unchanged. -/
def fieldKeeps (f f' : DatasetField) : Prop :=
  f.data_categories ≠ [] → f' = f

/-- A collection whose own label set was already non-empty keeps it, and
its fields satisfy `fieldKeeps` pointwise. -/
def collKeeps (t t' : DatasetCollection) : Prop :=
  (t.data_categories ≠ [] → t'.data_categories = t.data_categories) ∧
    List.Forall₂ fieldKeeps t.fields t'.fields

/-- The field loop never touches a field that already has labels. -/
theorem annotate_fields_keeps (keyOk : Str → Bool) (valid : List Str)
    (validate : Bool) :
    ∀ (fs : List DatasetField) (lines : List Str) (confirms : List Bool)
      (fs' : List DatasetField) (l : List Str) (c : List Bool),
      annotate_fields keyOk valid validate fs lines confirms = .ok fs' l c →
      List.Forall₂ fieldKeeps fs fs' := by
  intro fs
  induction fs with
  | nil =>
    intro lines confirms fs' l c h
    simp only [annotate_fields, StepOut.ok.injEq] at h
    rw [← h.1]
    exact List.Forall₂.nil
  | cons f fs ih =>
    intro lines confirms fs' l c h
    by_cases hf : f.data_categories = []
    · cases hg : get_data_categories_annotation keyOk valid validate lines
          confirms with
      | ok cats lines' confirms' =>
        cases hr : annotate_fields keyOk valid validate fs lines' confirms' with
        | ok fs'' l2 c2 =>
          rw [show annotate_fields keyOk valid validate (f :: fs) lines confirms
              = .ok ({ f with data_categories := cats } :: fs'') l2 c2 from by
            simp [annotate_fields, hf, hg, hr]] at h
          injection h with h1 _ _
          rw [← h1]
          exact List.Forall₂.cons (fun hne => absurd hf hne) (ih _ _ _ _ _ hr)
        | noInput =>
          rw [show annotate_fields keyOk valid validate (f :: fs) lines confirms
              = .noInput from by simp [annotate_fields, hf, hg, hr]] at h
          simp at h
      | abort lines' confirms' =>
        rw [show annotate_fields keyOk valid validate (f :: fs) lines confirms
            = .ok (f :: fs) lines' confirms' from by
          simp [annotate_fields, hf, hg]] at h
        injection h with h1 _ _
        rw [← h1]
        exact List.forall₂_same.mpr (fun x _ _ => rfl)
      | noInput =>
        rw [show annotate_fields keyOk valid validate (f :: fs) lines confirms
            = .noInput from by simp [annotate_fields, hf, hg]] at h
        simp at h
    · cases hr : annotate_fields keyOk valid validate fs lines confirms with
      | ok fs'' l2 c2 =>
        rw [show annotate_fields keyOk valid validate (f :: fs) lines confirms
            = .ok (f :: fs'') l2 c2 from by simp [annotate_fields, hf, hr]] at h
        injection h with h1 _ _
        rw [← h1]
        exact List.Forall₂.cons (fun _ => rfl) (ih _ _ _ _ _ hr)
      | noInput =>
        rw [show annotate_fields keyOk valid validate (f :: fs) lines confirms
            = .noInput from by simp [annotate_fields, hf, hr]] at h
        simp at h

/-- The collection loop never touches a label set that is already
non-empty, at collection level or field level. -/
theorem annotate_collections_keeps (keyOk : Str → Bool) (valid : List Str)
    (annotate_all validate : Bool) :
    ∀ (ts : List DatasetCollection) (lines : List Str)
      (confirms : List Bool) (ts' : List DatasetCollection) (l : List Str)
      (c : List Bool),
      annotate_collections keyOk valid annotate_all validate ts lines
        confirms = .ok ts' l c →
      List.Forall₂ collKeeps ts ts' := by
  intro ts
  induction ts with
  | nil =>
    intro lines confirms ts' l c h
    simp only [annotate_collections, StepOut.ok.injEq] at h
    rw [← h.1]
    exact List.Forall₂.nil
  | cons t ts ih =>
    intro lines confirms ts' l c h
    by_cases hc : annotate_all = true ∧ t.data_categories = []
    · cases hg : get_data_categories_annotation keyOk valid validate lines
          confirms with
      | abort l1 c1 =>
        rw [show annotate_collections keyOk valid annotate_all validate
            (t :: ts) lines confirms = .ok (t :: ts) l1 c1 from by
          simp only [annotate_collections]
          rw [if_pos hc]
          simp [hg]] at h
        injection h with h1 _ _
        rw [← h1]
        refine List.forall₂_same.mpr (fun x _ => ?_)
        exact ⟨fun _ => rfl, List.forall₂_same.mpr (fun y _ _ => rfl)⟩
      | noInput =>
        rw [show annotate_collections keyOk valid annotate_all validate
            (t :: ts) lines confirms = .noInput from by
          simp only [annotate_collections]
          rw [if_pos hc]
          simp [hg]] at h
        simp at h
      | ok cats l1 c1 =>
        cases hx : annotate_fields keyOk valid validate t.fields l1 c1 with
        | noInput =>
          rw [show annotate_collections keyOk valid annotate_all validate
              (t :: ts) lines confirms = .noInput from by
            simp only [annotate_collections]
            rw [if_pos hc]
            simp [hg, hx]] at h
          simp at h
        | ok flds l2 c2 =>
          cases hr : annotate_collections keyOk valid annotate_all validate
              ts l2 c2 with
          | noInput =>
            rw [show annotate_collections keyOk valid annotate_all validate
                (t :: ts) lines confirms = .noInput from by
              simp only [annotate_collections]
              rw [if_pos hc]
              simp [hg, hx, hr]] at h
            simp at h
          | ok ts'' l3 c3 =>
            rw [show annotate_collections keyOk valid annotate_all validate
                (t :: ts) lines confirms
                = .ok ({ t with data_categories := cats, fields := flds }
                    :: ts'') l3 c3 from by
              simp only [annotate_collections]
              rw [if_pos hc]
              simp [hg, hx, hr]] at h
            injection h with h1 _ _
            rw [← h1]
            refine List.Forall₂.cons ⟨fun hne => absurd hc.2 hne, ?_⟩
              (ih _ _ _ _ _ hr)
            exact annotate_fields_keeps keyOk valid validate _ _ _ _ _ _ hx
    · cases hx : annotate_fields keyOk valid validate t.fields lines
          confirms with
      | noInput =>
        rw [show annotate_collections keyOk valid annotate_all validate
            (t :: ts) lines confirms = .noInput from by
          simp only [annotate_collections]
          rw [if_neg hc]
          simp [hx]] at h
        simp at h
      | ok flds l2 c2 =>
        cases hr : annotate_collections keyOk valid annotate_all validate
            ts l2 c2 with
        | noInput =>
          rw [show annotate_collections keyOk valid annotate_all validate
              (t :: ts) lines confirms = .noInput from by
            simp only [annotate_collections]
            rw [if_neg hc]
            simp [hx, hr]] at h
          simp at h
        | ok ts'' l3 c3 =>
          rw [show annotate_collections keyOk valid annotate_all validate
              (t :: ts) lines confirms
              = .ok ({ t with fields := flds } :: ts'') l3 c3 from by
            simp only [annotate_collections]
            rw [if_neg hc]
            simp [hx, hr]] at h
          injection h with h1 _ _
          rw [← h1]
          refine List.Forall₂.cons ⟨fun _ => rfl, ?_⟩ (ih _ _ _ _ _ hr)
          exact annotate_fields_keeps keyOk valid validate _ _ _ _ _ _ hx

/-- The per-dataset step never touches a label set that is already
non-empty, at any of the three levels. -/
theorem annotate_one_dataset_keeps (keyOk : Str → Bool) (valid : List Str)
    (annotate_all validate : Bool) (d : Dataset) (lines : List Str)
    (confirms : List Bool) (d' : Dataset) (l : List Str) (c : List Bool)
    (h : annotate_one_dataset keyOk valid annotate_all validate d lines
      confirms = .ok d' l c) :
    (d.data_categories ≠ [] → d'.data_categories = d.data_categories) ∧
      List.Forall₂ collKeeps d.collections d'.collections := by
  by_cases hc : annotate_all = true ∧ d.data_categories = []
  · cases hg : get_data_categories_annotation keyOk valid validate lines
        confirms with
    | abort l1 c1 =>
      rw [show annotate_one_dataset keyOk valid annotate_all validate d lines
          confirms = .abortBreak l1 c1 from by
        simp only [annotate_one_dataset]
        rw [if_pos hc]
        simp [hg]] at h
      simp at h
    | noInput =>
      rw [show annotate_one_dataset keyOk valid annotate_all validate d lines
          confirms = .noInput from by
        simp only [annotate_one_dataset]
        rw [if_pos hc]
        simp [hg]] at h
      simp at h
    | ok cats l1 c1 =>
      cases hr : annotate_collections keyOk valid annotate_all validate
          d.collections l1 c1 with
      | noInput =>
        rw [show annotate_one_dataset keyOk valid annotate_all validate d
            lines confirms = .noInput from by
          simp only [annotate_one_dataset]
          rw [if_pos hc]
          simp [hg, hr]] at h
        simp at h
      | ok cols l2 c2 =>
        rw [show annotate_one_dataset keyOk valid annotate_all validate d
            lines confirms
            = .ok { d with data_categories := cats, collections := cols }
                l2 c2 from by
          simp only [annotate_one_dataset]
          rw [if_pos hc]
          simp [hg, hr]] at h
        injection h with h1 _ _
        rw [← h1]
        exact ⟨fun hne => absurd hc.2 hne,
          annotate_collections_keeps keyOk valid annotate_all validate
            _ _ _ _ _ _ hr⟩
  · cases hr : annotate_collections keyOk valid annotate_all validate
        d.collections lines confirms with
    | noInput =>
      rw [show annotate_one_dataset keyOk valid annotate_all validate d lines
          confirms = .noInput from by
        simp only [annotate_one_dataset]
        rw [if_neg hc]
        simp [hr]] at h
      simp at h
    | ok cols l2 c2 =>
      rw [show annotate_one_dataset keyOk valid annotate_all validate d lines
          confirms = .ok { d with collections := cols } l2 c2 from by
        simp only [annotate_one_dataset]
        rw [if_neg hc]
        simp [hr]] at h
      injection h with h1 _ _
      rw [← h1]
      exact ⟨fun _ => rfl,
        annotate_collections_keeps keyOk valid annotate_all validate
          _ _ _ _ _ _ hr⟩

/-- With annotate-all off, the collection loop never changes any
collection's own label set (it only descends into the fields). -/
theorem annotate_collections_no_aa (keyOk : Str → Bool) (valid : List Str)
    (validate : Bool) :
    ∀ (ts : List DatasetCollection) (lines : List Str)
      (confirms : List Bool) (ts' : List DatasetCollection) (l : List Str)
      (c : List Bool),
      annotate_collections keyOk valid false validate ts lines confirms
        = .ok ts' l c →
      List.Forall₂ (fun t t' => t'.data_categories = t.data_categories)
        ts ts' := by
  intro ts
  induction ts with
  | nil =>
    intro lines confirms ts' l c h
    simp only [annotate_collections, StepOut.ok.injEq] at h
    rw [← h.1]
    exact List.Forall₂.nil
  | cons t ts ih =>
    intro lines confirms ts' l c h
    cases hx : annotate_fields keyOk valid validate t.fields lines confirms with
    | noInput =>
      rw [show annotate_collections keyOk valid false validate (t :: ts)
          lines confirms = .noInput from by
        simp [annotate_collections, hx]] at h
      simp at h
    | ok flds l2 c2 =>
      cases hr : annotate_collections keyOk valid false validate ts l2 c2 with
      | noInput =>
        rw [show annotate_collections keyOk valid false validate (t :: ts)
            lines confirms = .noInput from by
          simp [annotate_collections, hx, hr]] at h
        simp at h
      | ok ts'' l3 c3 =>
        rw [show annotate_collections keyOk valid false validate (t :: ts)
            lines confirms = .ok ({ t with fields := flds } :: ts'') l3 c3
            from by simp [annotate_collections, hx, hr]] at h
        injection h with h1 _ _
        rw [← h1]
        exact List.Forall₂.cons rfl (ih _ _ _ _ _ hr)

/-- With annotate-all off, the per-dataset step never changes the
dataset's or any collection's own label set. -/
theorem annotate_one_dataset_no_aa (keyOk : Str → Bool) (valid : List Str)
    (validate : Bool) (d : Dataset) (lines : List Str)
    (confirms : List Bool) (d' : Dataset) (l : List Str) (c : List Bool)
    (h : annotate_one_dataset keyOk valid false validate d lines confirms
      = .ok d' l c) :
    d'.data_categories = d.data_categories ∧
      List.Forall₂ (fun t t' => t'.data_categories = t.data_categories)
        d.collections d'.collections := by
  cases hr : annotate_collections keyOk valid false validate d.collections
      lines confirms with
  | noInput =>
    rw [show annotate_one_dataset keyOk valid false validate d lines confirms
        = .noInput from by simp [annotate_one_dataset, hr]] at h
    simp at h
  | ok cols l2 c2 =>
    rw [show annotate_one_dataset keyOk valid false validate d lines confirms
        = .ok { d with collections := cols } l2 c2 from by
      simp [annotate_one_dataset, hr]] at h
    injection h with h1 _ _
    rw [← h1]
    exact ⟨rfl, annotate_collections_no_aa keyOk valid validate _ _ _ _ _ _ hr⟩

/-- On collections whose own label sets are all non-empty, the
annotate-all flag is irrelevant: the collection loop behaves identically
with the flag on or off, because field-level prompting is not gated by
the flag. -/
theorem annotate_collections_aa_irrelevant (keyOk : Str → Bool)
    (valid : List Str) (validate : Bool) :
    ∀ (ts : List DatasetCollection),
      (∀ t ∈ ts, t.data_categories ≠ []) →
      ∀ (lines : List Str) (confirms : List Bool),
        annotate_collections keyOk valid true validate ts lines confirms
          = annotate_collections keyOk valid false validate ts lines
              confirms := by
  intro ts
  induction ts with
  | nil => intro _ lines confirms; rfl
  | cons t ts ih =>
    intro hne lines confirms
    have ht : t.data_categories ≠ [] := hne t (List.mem_cons_self t ts)
    have hts : ∀ x ∈ ts, x.data_categories ≠ [] := fun x hx =>
      hne x (List.mem_cons_of_mem _ hx)
    simp only [annotate_collections]
    rw [if_neg (show ¬(True ∧ t.data_categories = []) from by simp [ht])]
    rw [if_neg (show ¬((false : Bool) = true ∧ t.data_categories = []) from by
      simp)]
    cases hx : annotate_fields keyOk valid validate t.fields lines confirms with
    | noInput => simp [hx]
    | ok flds l2 c2 => simp [hx, ih hts]

/-- Claim C7: annotation never overwrites a label set that is already
non-empty — the walker prompts for and assigns `data_categories` only
when the entity's existing set is empty (first three conjuncts, at field,
collection and dataset level); dataset- and collection-level prompting
occurs only in annotate-all mode (fourth conjunct: with the flag off,
those label sets are never changed at all); and field-level prompting is
unconditional, not gated by annotate-all (fifth conjunct: on collections
whose own sets are non-empty, the flag makes no difference whatsoever to
the walk). -/
theorem annotation_only_fills_empty :
    (∀ (keyOk : Str → Bool) (valid : List Str) (validate : Bool)
        (fs : List DatasetField) (lines : List Str) (confirms : List Bool)
        (fs' : List DatasetField) (l : List Str) (c : List Bool),
        annotate_fields keyOk valid validate fs lines confirms
          = .ok fs' l c →
        List.Forall₂ fieldKeeps fs fs') ∧
    (∀ (keyOk : Str → Bool) (valid : List Str) (annotate_all validate : Bool)
        (ts : List DatasetCollection) (lines : List Str)
        (confirms : List Bool) (ts' : List DatasetCollection) (l : List Str)
        (c : List Bool),
        annotate_collections keyOk valid annotate_all validate ts lines
          confirms = .ok ts' l c →
        List.Forall₂ collKeeps ts ts') ∧
    (∀ (keyOk : Str → Bool) (valid : List Str) (annotate_all validate : Bool)
        (d : Dataset) (lines : List Str) (confirms : List Bool)
        (d' : Dataset) (l : List Str) (c : List Bool),
        annotate_one_dataset keyOk valid annotate_all validate d lines
          confirms = .ok d' l c →
        (d.data_categories ≠ [] → d'.data_categories = d.data_categories) ∧
          List.Forall₂ collKeeps d.collections d'.collections) ∧
    (∀ (keyOk : Str → Bool) (valid : List Str) (validate : Bool)
        (d : Dataset) (lines : List Str) (confirms : List Bool)
        (d' : Dataset) (l : List Str) (c : List Bool),
        annotate_one_dataset keyOk valid false validate d lines confirms
          = .ok d' l c →
        d'.data_categories = d.data_categories ∧
          List.Forall₂ (fun t t' => t'.data_categories = t.data_categories)
            d.collections d'.collections) ∧
    (∀ (keyOk : Str → Bool) (valid : List Str) (validate : Bool)
        (ts : List DatasetCollection),
        (∀ t ∈ ts, t.data_categories ≠ []) →
        ∀ (lines : List Str) (confirms : List Bool),
          annotate_collections keyOk valid true validate ts lines confirms
            = annotate_collections keyOk valid false validate ts lines
                confirms) :=
  ⟨fun keyOk valid validate fs lines confirms fs' l c h =>
      annotate_fields_keeps keyOk valid validate fs lines confirms fs' l c h,
   fun keyOk valid aa validate ts lines confirms ts' l c h =>
      annotate_collections_keeps keyOk valid aa validate ts lines confirms
        ts' l c h,
   fun keyOk valid aa validate d lines confirms d' l c h =>
      annotate_one_dataset_keeps keyOk valid aa validate d lines confirms
        d' l c h,
   fun keyOk valid validate d lines confirms d' l c h =>
      annotate_one_dataset_no_aa keyOk valid validate d lines confirms
        d' l c h,
   fun keyOk valid validate ts hne lines confirms =>
      annotate_collections_aa_irrelevant keyOk valid validate ts hne lines
        confirms⟩

/-- A pre-labelled field fixture for the C7 witness. -/
def fixW_field : DatasetField :=
  { name := "a".data, data_categories := [catPersons] }

/-- A pre-labelled collection fixture for the C7 witness. -/
def fixW_coll : DatasetCollection :=
  { name := "t".data, data_categories := [catPersons] }

/-- A pre-labelled dataset fixture for the C7 witness. -/
def fixW_ds : Dataset :=
  { name := "d".data, data_categories := [catPersons] }

/-- An unlabelled dataset fixture (one labelled-field collection) for the
annotate-all-off conjunct of the C7 witness. -/
def fixW_ds0 : Dataset :=
  { name := "d0".data
    collections := [{ name := "t0".data, fields := [fixW_field] }] }

/-- Witness for C7 at concrete inputs, one per conjunct. -/
theorem annotation_only_fills_empty_inst :
    List.Forall₂ fieldKeeps [fixW_field] [fixW_field] ∧
    List.Forall₂ collKeeps [fixW_coll] [fixW_coll] ∧
    ((fixW_ds.data_categories ≠ [] →
        fixW_ds.data_categories = fixW_ds.data_categories) ∧
      List.Forall₂ collKeeps fixW_ds.collections fixW_ds.collections) ∧
    (fixW_ds0.data_categories = fixW_ds0.data_categories ∧
      List.Forall₂ (fun t t' => t'.data_categories = t.data_categories)
        fixW_ds0.collections fixW_ds0.collections) ∧
    annotate_collections kTrue [] true true [fixW_coll] ["x".data] []
      = annotate_collections kTrue [] false true [fixW_coll] ["x".data] [] :=
  ⟨annotation_only_fills_empty.1 kTrue [] true [fixW_field] [] []
      [fixW_field] [] [] (by decide),
   annotation_only_fills_empty.2.1 kTrue [] true true [fixW_coll] [] []
      [fixW_coll] [] [] (by decide),
   annotation_only_fills_empty.2.2.1 kTrue [] true true fixW_ds [] []
      fixW_ds [] [] (by decide),
   annotation_only_fills_empty.2.2.2.1 kTrue [] true fixW_ds0 [] []
      fixW_ds0 [] [] (by decide),
   annotation_only_fills_empty.2.2.2.2 kTrue [] true [fixW_coll]
      (by decide) ["x".data] []⟩

/-! ### Claim theorems for the generator -/

/-- The outer keys of `get_db_collections_and_fields` are exactly the
non-excluded schema names, in order. -/
theorem get_db_collections_and_fields_keys (dialect : Str)
    (inspector : Inspector) :
    (get_db_collections_and_fields dialect inspector).map Prod.fst
      = inspector.schema_names.filter (fun s =>
          s ∉ ["information_schema".data] ++
            (if dialect = "mysql".data then
              ["mysql".data, "performance_schema".data, "sys".data]
            else [])) := by
  simp only [get_db_collections_and_fields, List.map_map]
  exact List.map_id _

/-- Claim C8: for every engine handle (dialect name plus introspected
schema/table/column structure), the mapping returned by
`get_db_collections_and_fields` never contains the schema key
`information_schema`; when the dialect is `mysql` it additionally never
contains the keys `mysql`, `performance_schema` or `sys`; and every
inner key is the qualified table name `schema ++ "." ++ table` for a
table of that schema. -/
theorem get_db_collections_and_fields_excludes (dialect : Str)
    (inspector : Inspector) :
    "information_schema".data ∉
        (get_db_collections_and_fields dialect inspector).map Prod.fst ∧
    (dialect = "mysql".data →
      "mysql".data ∉
          (get_db_collections_and_fields dialect inspector).map Prod.fst ∧
        "performance_schema".data ∉
          (get_db_collections_and_fields dialect inspector).map Prod.fst ∧
        "sys".data ∉
          (get_db_collections_and_fields dialect inspector).map Prod.fst) ∧
    (∀ p ∈ get_db_collections_and_fields dialect inspector, ∀ q ∈ p.2,
      ∃ t ∈ inspector.table_names p.1, q.1 = p.1 ++ ".".data ++ t) := by
  refine ⟨?_, ?_, ?_⟩
  · intro hm
    rw [get_db_collections_and_fields_keys] at hm
    have h2 := List.of_mem_filter hm
    simp only [decide_eq_true_eq] at h2
    exact h2 (List.mem_append_left _ (by decide))
  · intro hd
    subst hd
    refine ⟨?_, ?_, ?_⟩ <;> intro hm <;>
      rw [get_db_collections_and_fields_keys] at hm <;>
      have h2 := List.of_mem_filter hm <;>
      simp only [decide_eq_true_eq, if_pos rfl] at h2 <;>
      exact h2 (by decide)
  · intro p hp q hq
    simp only [get_db_collections_and_fields, List.mem_map] at hp
    obtain ⟨s, _, rfl⟩ := hp
    simp only [List.mem_map] at hq
    obtain ⟨t, ht, rfl⟩ := hq
    exact ⟨t, ht, rfl⟩

/-- Witness for C8 at a concrete mysql engine: three system schemas and
one user schema with one table of one column. -/
theorem get_db_collections_and_fields_excludes_inst :
    "information_schema".data ∉
        (get_db_collections_and_fields "mysql".data
          { schema_names := ["information_schema".data, "mysql".data,
              "performance_schema".data, "sys".data, "public".data]
            table_names := fun _ => ["users".data]
            columns := fun _ _ => ["id".data] }).map Prod.fst ∧
    ("mysql".data ∉
        (get_db_collections_and_fields "mysql".data
          { schema_names := ["information_schema".data, "mysql".data,
              "performance_schema".data, "sys".data, "public".data]
            table_names := fun _ => ["users".data]
            columns := fun _ _ => ["id".data] }).map Prod.fst ∧
      "performance_schema".data ∉
        (get_db_collections_and_fields "mysql".data
          { schema_names := ["information_schema".data, "mysql".data,
              "performance_schema".data, "sys".data, "public".data]
            table_names := fun _ => ["users".data]
            columns := fun _ _ => ["id".data] }).map Prod.fst ∧
      "sys".data ∉
        (get_db_collections_and_fields "mysql".data
          { schema_names := ["information_schema".data, "mysql".data,
              "performance_schema".data, "sys".data, "public".data]
            table_names := fun _ => ["users".data]
            columns := fun _ _ => ["id".data] }).map Prod.fst) ∧
    (∀ p ∈ get_db_collections_and_fields "mysql".data
        { schema_names := ["information_schema".data, "mysql".data,
            "performance_schema".data, "sys".data, "public".data]
          table_names := fun _ => ["users".data]
          columns := fun _ _ => ["id".data] }, ∀ q ∈ p.2,
      ∃ t ∈ ["users".data], q.1 = p.1 ++ ".".data ++ t) :=
  ⟨(get_db_collections_and_fields_excludes "mysql".data _).1,
   (get_db_collections_and_fields_excludes "mysql".data _).2.1 rfl,
   (get_db_collections_and_fields_excludes "mysql".data _).2.2⟩

/-- Claim C9: for every input mapping `{schema: {table: [columns]}}`,
`create_dataset_collections` returns a `Dataset` list whose dataset
count equals the schema count, where each dataset's collection count
equals that schema's table count, each collection's field count equals
that table's column count, every field carries a non-empty generated
placeholder description, and every field's `data_categories` list is
empty. -/
theorem create_dataset_collections_shape
    (db_tables : List (Str × List (Str × List Str))) :
    (create_dataset_collections db_tables).length = db_tables.length ∧
    List.Forall₂ (fun (p : Str × List (Str × List Str)) (d : Dataset) =>
        d.collections.length = p.2.length ∧
        List.Forall₂ (fun (q : Str × List Str) (coll : DatasetCollection) =>
            coll.fields.length = q.2.length ∧
            ∀ f ∈ coll.fields, f.description ≠ [] ∧ f.data_categories = [])
          p.2 d.collections)
      db_tables (create_dataset_collections db_tables) := by
  constructor
  · simp [create_dataset_collections]
  · rw [create_dataset_collections, List.forall₂_map_right_iff]
    refine List.forall₂_same.mpr (fun p _ => ⟨by simp, ?_⟩)
    rw [List.forall₂_map_right_iff]
    refine List.forall₂_same.mpr (fun q _ => ⟨by simp, ?_⟩)
    intro f hf
    simp only [List.mem_map] at hf
    obtain ⟨column, _, rfl⟩ := hf
    refine ⟨fun h => ?_, rfl⟩
    rw [List.append_eq_nil] at h
    exact absurd h.1 (by decide)

/-- Witness for C9 at the concrete fixture
`{public: {public.users: [id, email]}}`. -/
theorem create_dataset_collections_shape_inst :
    (create_dataset_collections
        [("public".data, [("public.users".data,
          ["id".data, "email".data])])]).length = 1 ∧
    List.Forall₂ (fun (p : Str × List (Str × List Str)) (d : Dataset) =>
        d.collections.length = p.2.length ∧
        List.Forall₂ (fun (q : Str × List Str) (coll : DatasetCollection) =>
            coll.fields.length = q.2.length ∧
            ∀ f ∈ coll.fields, f.description ≠ [] ∧ f.data_categories = [])
          p.2 d.collections)
      [("public".data, [("public.users".data, ["id".data, "email".data])])]
      (create_dataset_collections
        [("public".data, [("public.users".data,
          ["id".data, "email".data])])]) :=
  create_dataset_collections_shape
    [("public".data, [("public.users".data, ["id".data, "email".data])])]

end Fides
